import Mathlib

/-!
Verification development for the TSP solver comparison repository.

Shallow embedding conventions:
* TSPLIB node labels and tour entries are nonnegative Python ints; they are
  modelled as `Nat`.  Edge weights returned by `problem.get_weight` are
  integers for all standard TSPLIB weight kinds, so weights are modelled as
  `Nat → Nat → Int` and `int(10000 * w)` is exactly `10000 * w`.
* Wall-clock times are external inputs: a solver adapter is modelled as a
  function from the distance matrix and the repetition index to either an
  error (a raised Python exception) or a pair of the returned tour and the
  elapsed time.  `Except String` models exception propagation: the Python
  code in `main.py` contains no try/except, so any raised exception
  propagates through `run_solvers` and `main`.
* Python's `min(list)` on a nonempty list is `listMinD l d`; the default `d`
  is never used on the lists the program builds (they are nonempty).
* Rational numbers stand in for Python floats; `round(x, k)` is modelled by
  `pyRound k x` (the float-level banker's-rounding detail is immaterial to
  every claim below).
-/

/-- Minimum of a list of naturals with a default for the empty list;
`listMinD l d` equals Python `min(l)` for nonempty `l`. -/
def listMinD : List Nat → Nat → Nat
  | [], d => d
  | h :: t, _ => t.foldl Nat.min h

/-- A TSPLIB problem as used by `src/src/domain/utils.py`: a dimension, the
node labels (`problem.get_nodes()`), and the weight function
(`problem.get_weight`). -/
structure Problem where
  dimension : Nat
  nodes : List Nat
  weight : Nat → Nat → Int

/-- Embedding of `get_tour_length` from `src/src/domain/utils.py`:
`n = problem.dimension`, `lowest_index = min(problem.get_nodes())`,
`lowest_tour_index = min(tour)`, then the sum over `i` in
`range(len(tour))` of
`problem.get_weight(tour[i] + lowest_index - lowest_tour_index,
tour[(i+1) % n] + lowest_index - lowest_tour_index)`.
The `Nat` subtraction agrees with Python because
`lowest_tour_index ≤ tour[i]` for every entry. -/
def get_tour_length (p : Problem) (tour : List Nat) : Int :=
  ((List.range tour.length).map (fun i =>
    p.weight (tour.getD i 0 + listMinD p.nodes 0 - listMinD tour 0)
      (tour.getD ((i + 1) % p.dimension) 0 + listMinD p.nodes 0 -
        listMinD tour 0))).sum

/-- Embedding of `get_distance_matrix` from `src/src/domain/utils.py`:
an `n × n` matrix with `0` on the diagonal and
`int(10000 * problem.get_weight(i + starting_node_index, j + starting_node_index))`
off it (exact, since TSPLIB weights are integers). -/
def get_distance_matrix (p : Problem) : List (List Int) :=
  (List.range p.dimension).map (fun i =>
    (List.range p.dimension).map (fun j =>
      if i ≠ j then
        10000 * p.weight (i + listMinD p.nodes 0) (j + listMinD p.nodes 0)
      else 0))

/-- Comparison definition taken from the spec's words (section 4.1), not from
the source: "given a tour and the instance's distance matrix, sum
`distance[tour[i]][tour[(i+1) % n]]` over all i", computed directly on the
matrix that is passed to the solvers. -/
def specMatrixTourLength (d : List (List Int)) (tour : List Nat) : Int :=
  ((List.range tour.length).map (fun i =>
    (d.getD (tour.getD i 0) []).getD
      (tour.getD ((i + 1) % d.length) 0) 0)).sum

/-- Validity of a tour per the spec's data model: a permutation of
`0..n-1` (right length, every index present, hence no duplicates). -/
def isValidTour (n : Nat) (t : List Nat) : Bool :=
  t.length == n && (List.range n).all (fun i => t.contains i)

/-- A solver adapter: given the distance matrix and the repetition index it
either raises (`Except.error`, the message of the Python exception) or
returns the tour together with the elapsed wall-clock time of the call. -/
def SolverFun : Type :=
  List (List Int) → Nat → Except String (List Nat × ℚ)

/-- The per-solver inner loop of `run_solvers` in `src/main.py`
(`for _ in range(runs)`): each repetition times the `solve` call, appends
the elapsed time to `times` and `get_tour_length(problem, tour)` to
`lengths`.  A raised exception aborts the loop and propagates. -/
def runAttempts (p : Problem) (dm : List (List Int)) (s : SolverFun) :
    Nat → Except String (List Int × List ℚ)
  | 0 => Except.ok ([], [])
  | k + 1 =>
    match runAttempts p dm s k with
    | Except.error e => Except.error e
    | Except.ok lt =>
      match s dm k with
      | Except.error e => Except.error e
      | Except.ok r =>
        Except.ok (lt.1 ++ [get_tour_length p r.1], lt.2 ++ [r.2])

/-- The outer solver loop of `run_solvers` (`for name, solver in
solvers.items()`), collecting each solver's length and time lists; an
exception from any repetition of any solver propagates. -/
def collectAttempts (p : Problem) (dm : List (List Int)) (runs : Nat) :
    List (String × SolverFun) →
    Except String (List (String × List Int × List ℚ))
  | [] => Except.ok []
  | s :: rest =>
    match runAttempts p dm s.2 runs with
    | Except.error e => Except.error e
    | Except.ok lt =>
      match collectAttempts p dm runs rest with
      | Except.error e => Except.error e
      | Except.ok others => Except.ok ((s.1, lt.1, lt.2) :: others)

/-- Per-solver result record assembled by the second loop of
`run_solvers` (the `results[name].update(...)` step). -/
structure Metrics where
  lengths : List Int
  times : List ℚ
  avg_length : ℚ
  avg_time : ℚ
  gap : Option ℚ
deriving DecidableEq, Repr

/-- The gap computation of `run_solvers`: `gap = None`, then
`if optimal_length: gap = ((avg_length - optimal_length) / optimal_length) * 100`.
Python truthiness makes both `None` and `0` skip the computation. -/
def gapOf (optimal_length : Option ℚ) (avg_length : ℚ) : Option ℚ :=
  match optimal_length with
  | none => none
  | some l => if l = 0 then none else some ((avg_length - l) / l * 100)

/-- The aggregation step of `run_solvers`:
`avg_length = sum(lengths) / runs`, `avg_time = sum(times) / runs`,
and the gap as above.  (For `runs = 0` Python would raise
`ZeroDivisionError`; the program always calls with `runs = 1`.) -/
def mkMetrics (runs : Nat) (optimal_length : Option ℚ) (ls : List Int)
    (ts : List ℚ) : Metrics :=
  ⟨ls, ts, (ls.map (fun x => (x : ℚ))).sum / (runs : ℚ),
    ts.sum / (runs : ℚ),
    gapOf optimal_length ((ls.map (fun x => (x : ℚ))).sum / (runs : ℚ))⟩

/-- Embedding of `run_solvers` from `src/main.py`: run every solver for
`runs` repetitions (phase 1), then compute averages and gap (phase 2).
There is no try/except anywhere, so an exception from any `solve` call
aborts the whole function. -/
def run_solvers (p : Problem) (dm : List (List Int))
    (solvers : List (String × SolverFun)) (runs : Nat)
    (optimal_length : Option ℚ) :
    Except String (List (String × Metrics)) :=
  match collectAttempts p dm runs solvers with
  | Except.error e => Except.error e
  | Except.ok raw =>
    Except.ok (raw.map (fun r =>
      (r.1, mkMetrics runs optimal_length r.2.1 r.2.2)))

/-- From `src/config.py`: `MAX_PROBLEM_SIZE = 1000`.  `main.py` never
imports `config`; its instance filter is the literal `100`. -/
def MAX_PROBLEM_SIZE : Nat := 1000

/-- One row of results as assembled by `main` before writing. -/
structure Row where
  instance_name : String
  dimension : Nat
  optimal_length : Int
  results : List (String × Metrics)

/-- The two files loaded per instance name by `main`
(`tsplib95.load(....tsp)` and `tsplib95.load(....opt.tour)`, the latter
reduced to `opt.tours[0]`); loading is fallible. -/
structure InstanceFiles where
  name : String
  problem : Except String Problem
  optTour : Except String (List Nat)

/-- Embedding of the corpus loop of `main` in `src/main.py`: load the
problem (a failure propagates — there is no try/except), skip instances
with `problem.dimension > 100`, load the optimal tour, compute
`optimal_length = get_tour_length(problem, opt.tours[0])`, call
`run_solvers` with `runs = 1` in the real program, and collect the row.
Any exception aborts the whole loop. -/
def mainLoop (solvers : List (String × SolverFun)) (runs : Nat) :
    List InstanceFiles → Except String (List Row)
  | [] => Except.ok []
  | inst :: rest =>
    match inst.problem with
    | Except.error e => Except.error e
    | Except.ok p =>
      if p.dimension > 100 then mainLoop solvers runs rest
      else
        match inst.optTour with
        | Except.error e => Except.error e
        | Except.ok t =>
          match run_solvers p (get_distance_matrix p) solvers runs
              (some ((get_tour_length p t : Int) : ℚ)) with
          | Except.error e => Except.error e
          | Except.ok results =>
            match mainLoop solvers runs rest with
            | Except.error e => Except.error e
            | Except.ok rows =>
              Except.ok (⟨inst.name, p.dimension, get_tour_length p t,
                results⟩ :: rows)

/-- A CSV cell value as Python's csv module sees it: a string, an int, a
float (here a rational), or `None`. -/
inductive CellVal
  | s (v : String)
  | n (v : Int)
  | q (v : ℚ)
  | null
deriving DecidableEq, Repr

/-- Model of Python `round(x, k)` on rationals (the banker's-rounding
float detail is immaterial to the claims). -/
def pyRound (k : Nat) (x : ℚ) : ℚ :=
  ((round (x * (10 : ℚ) ^ k) : ℤ) : ℚ) / (10 : ℚ) ^ k

/-- The three CSV cells `main` adds per solver, in insertion order:
`<name>_avg_length`, `<name>_avg_time`, then `<name>_gap` (set to the
rounded gap when present, and to `None` otherwise). -/
def solverCells (entry : String × Metrics) : List (String × CellVal) :=
  [(entry.1 ++ "_avg_length", CellVal.q (pyRound 2 entry.2.avg_length)),
   (entry.1 ++ "_avg_time", CellVal.q (pyRound 4 entry.2.avg_time))] ++
  (match entry.2.gap with
   | some g => [(entry.1 ++ "_gap", CellVal.q (pyRound 2 g))]
   | none => [(entry.1 ++ "_gap", CellVal.null)])

/-- The `csv_row` dict of `main`, with keys in insertion order:
instance metadata first, then each solver's three cells. -/
def csvRowOf (r : Row) : List (String × CellVal) :=
  [("instance_name", CellVal.s r.instance_name),
   ("dimension", CellVal.n (r.dimension : Int)),
   ("optimal_length", CellVal.n r.optimal_length)] ++
  r.results.flatMap solverCells

/-- The `fieldnames` list built by `main` before the loop: the three
metadata columns followed by the per-solver triple for each solver in
declaration order. -/
def fieldnamesOf (solverNames : List String) : List String :=
  ["instance_name", "dimension", "optimal_length"] ++
  solverNames.flatMap (fun n =>
    [n ++ "_avg_length", n ++ "_avg_time", n ++ "_gap"])

/-- Serialization of a cell by Python's csv writer: `None` becomes the
empty field, other values their textual form. -/
def serializeCell : CellVal → String
  | CellVal.s v => v
  | CellVal.n v => toString v
  | CellVal.q v => toString v
  | CellVal.null => ""

/-- Model of `csv.DictWriter.writerow`: emit, for each declared field in
order, the serialized value stored under that key (`None`, serialized
empty, for a missing key — the program never omits a key). -/
def writerow (fieldnames : List String) (row : List (String × CellVal)) :
    List String :=
  fieldnames.map (fun f => serializeCell ((row.lookup f).getD CellVal.null))

/-- The CSV output of `main`: the header row written once at file
creation, then one `writerow` per completed instance. -/
def mainCsv (solvers : List (String × SolverFun)) (runs : Nat)
    (instances : List InstanceFiles) :
    Except String (List (List String)) :=
  match mainLoop solvers runs instances with
  | Except.error e => Except.error e
  | Except.ok rows =>
    Except.ok (fieldnamesOf (solvers.map Prod.fst) ::
      rows.map (fun r => writerow (fieldnamesOf (solvers.map Prod.fst))
        (csvRowOf r)))

/-- The narrative lines `main` prints for one solver: the title line, the
average length and average time lines, and a gap line only when the gap is
present (the `.2f` float formatting is abbreviated to `toString`). -/
def solverNarrative (name : String) (m : Metrics) : List String :=
  ["\n" ++ name ++ " RESULTS:",
   "  Average length: " ++ toString m.avg_length,
   "  Average time: " ++ toString m.avg_time ++ " seconds"] ++
  (match m.gap with
   | some g => ["  Optimality gap: " ++ toString g ++ "%"]
   | none => [])

/-- Embedding of `GoogleORToolsSolver.solve`'s route post-processing
(`src/src/domain/solver.py`): remove the duplicated start node from the
end of the extracted route
(`if len(tour) > 1 and tour[0] == tour[-1]: tour.pop()`). -/
def orToolsExtract (raw : List Nat) : List Nat :=
  if raw.length > 1 && (raw.head? == raw.getLast?) then raw.dropLast
  else raw

/-- A Python float as returned on the failure branch. -/
inductive PyFloat
  | inf
  | val (q : ℚ)
deriving DecidableEq, Repr

/-- The two value shapes `GoogleORToolsSolver.solve` can return: a plain
list of node indices, or the 2-tuple built by `return [], float("inf")`. -/
inductive PySolveResult
  | tourList (t : List Nat)
  | pair (t : List Nat) (x : PyFloat)
deriving DecidableEq, Repr

/-- Embedding of `GoogleORToolsSolver.solve` after the search: the opaque
OR-Tools search either finds no solution (`none`) or yields the extracted
route from `routing.Start(0)` through the end depot (`some raw`, a
sequence that starts and ends at node `0`).  On `none` the function
returns the pair `([], float("inf"))`; otherwise the route with the
duplicated final start node removed. -/
def orToolsSolve (searchResult : Option (List Nat)) : PySolveResult :=
  match searchResult with
  | none => PySolveResult.pair [] PyFloat.inf
  | some raw => PySolveResult.tourList (orToolsExtract raw)

/-- Cyclic edge-weight sum of a list under a weight function: the common
shape of `get_tour_length` once the index offsets are fixed. -/
def cyc (w : Nat → Nat → Int) (u : List Nat) : Int :=
  ((List.range u.length).map (fun i =>
    w (u.getD i 0) (u.getD ((i + 1) % u.length) 0))).sum

deriving instance DecidableEq for Except

/-- Example weight function on two nodes: `[0,1]` has length `10` and the
degenerate list `[0,0]` has length `12`. -/
def wC2 : Nat → Nat → Int := fun a b =>
  if a = 0 ∧ b = 1 then 4
  else if a = 1 ∧ b = 0 then 6
  else if a = 0 ∧ b = 0 then 6
  else 0

/-- Example two-node problem. -/
def pC2 : Problem := ⟨2, [0, 1], wC2⟩

/-- Example three-node problem with unit off-diagonal weights. -/
def pUnitW : Problem := ⟨3, [0, 1, 2], fun a b => if a = b then 0 else 1⟩

/-- Example three-node problem with an asymmetric weight function
(non-negative, zero diagonal): `w 0 1 = 1` but `w 1 0 = 2`. -/
def pAsym : Problem :=
  ⟨3, [0, 1, 2],
    fun a b => if a = 0 ∧ b = 1 then 1 else if a = 1 ∧ b = 0 then 2 else 0⟩

/-- Example three-node problem with a symmetric weight function. -/
def pSym : Problem := ⟨3, [0, 1, 2], fun a b => (a : Int) * (b : Int)⟩

/-- Adapter that succeeds twice (lengths `10` and `12` on `pC2`) and then
raises on its third repetition. -/
def solverRep : SolverFun := fun _ k =>
  if k = 0 then Except.ok ([0, 1], 1)
  else if k = 1 then Except.ok ([0, 0], 1)
  else Except.error "boom"

/-- Adapter that always succeeds with tour `[0, 1]` in one time unit. -/
def solverOk : SolverFun := fun _ _ => Except.ok ([0, 1], 1)

/-- Adapter that always raises. -/
def solverBad : SolverFun := fun _ _ => Except.error "crash"

/-- One-node problem with all-zero weights. -/
def pOne : Problem := ⟨1, [0], fun _ _ => 0⟩

/-- Adapter returning the only tour of `pOne` instantly. -/
def solverOne : SolverFun := fun _ _ => Except.ok ([0], 0)

/-- Instance whose files load fine (dimension 1). -/
def instGood : InstanceFiles := ⟨"good", Except.ok pOne, Except.ok [0]⟩

/-- Instance whose `.tsp` file fails to parse. -/
def instBad : InstanceFiles :=
  ⟨"bad", Except.error "parse error", Except.ok [0]⟩

/-- Instance of dimension 500 (below `MAX_PROBLEM_SIZE` but above the
loop's literal threshold 100). -/
def inst500 : InstanceFiles :=
  ⟨"big", Except.ok ⟨500, [0], fun _ _ => 0⟩, Except.ok [0]⟩

/-- The row `main` produces for `instGood` with the single solver "s":
the optimal tour `[0]` has length 0, so the gap is absent. -/
def rowGoodM : Row :=
  ⟨"good", 1, 0, [("s", mkMetrics 1 (some ((0 : Int) : ℚ)) [0] [0])]⟩

theorem runAttempts_ok_lengths (p : Problem) (dm : List (List Int))
    (s : SolverFun) :
    ∀ k lt, runAttempts p dm s k = Except.ok lt →
      lt.1.length = k ∧ lt.2.length = k := by
  intro k
  induction k with
  | zero =>
    intro lt h
    simp only [runAttempts] at h
    cases h
    exact ⟨rfl, rfl⟩
  | succ m ih =>
    intro lt h
    simp only [runAttempts] at h
    cases hm : runAttempts p dm s m with
    | error e => rw [hm] at h; cases h
    | ok lt0 =>
      rw [hm] at h
      cases hs : s dm m with
      | error e => rw [hs] at h; cases h
      | ok r =>
        rw [hs] at h
        cases h
        have h2 := ih lt0 hm
        exact ⟨by simp [h2.1], by simp [h2.2]⟩

theorem collectAttempts_ok_spec (p : Problem) (dm : List (List Int))
    (runs : Nat) :
    ∀ solvers raw, collectAttempts p dm runs solvers = Except.ok raw →
      raw.map (fun r => r.1) = solvers.map Prod.fst ∧
      ∀ r ∈ raw, r.2.1.length = runs ∧ r.2.2.length = runs := by
  intro solvers
  induction solvers with
  | nil =>
    intro raw h
    simp only [collectAttempts] at h
    cases h
    exact ⟨rfl, by intro r hr; cases hr⟩
  | cons s rest ih =>
    intro raw h
    simp only [collectAttempts] at h
    cases ha : runAttempts p dm s.2 runs with
    | error e => rw [ha] at h; cases h
    | ok lt =>
      rw [ha] at h
      cases hc : collectAttempts p dm runs rest with
      | error e => rw [hc] at h; cases h
      | ok others =>
        rw [hc] at h
        cases h
        have hl := runAttempts_ok_lengths p dm s.2 runs lt ha
        have hr := ih others hc
        constructor
        · simp [hr.1]
        · intro r hmem
          cases hmem with
          | head => exact ⟨hl.1, hl.2⟩
          | tail _ hmem2 => exact hr.2 r hmem2

theorem collectAttempts_error_of_mem (p : Problem) (dm : List (List Int))
    (runs : Nat) (name : String) (s : SolverFun) (e : String) :
    ∀ solvers, (name, s) ∈ solvers →
      runAttempts p dm s runs = Except.error e →
      ∀ raw, collectAttempts p dm runs solvers ≠ Except.ok raw := by
  intro solvers
  induction solvers with
  | nil => intro hmem; cases hmem
  | cons hd rest ih =>
    intro hmem herr raw h
    simp only [collectAttempts] at h
    cases hmem with
    | head =>
      rw [herr] at h
      cases h
    | tail _ hmem2 =>
      cases ha : runAttempts p dm hd.2 runs with
      | error e2 => rw [ha] at h; cases h
      | ok lt =>
        rw [ha] at h
        cases hc : collectAttempts p dm runs rest with
        | error e2 => rw [hc] at h; cases h
        | ok others => exact ih hmem2 herr others hc

/-- C1 (amended): `run_solvers` performs no failure isolation.  If any
solver adapter in the list raises during its repetitions, the exception
propagates and `run_solvers` returns no metrics at all — not for the
failing solver, not for any other solver of the instance. -/
theorem run_solvers_aborts_on_adapter_error (p : Problem)
    (dm : List (List Int)) (solvers : List (String × SolverFun))
    (runs : Nat) (opt : Option ℚ) (name : String) (s : SolverFun)
    (e : String) (hmem : (name, s) ∈ solvers)
    (herr : runAttempts p dm s runs = Except.error e) :
    ∀ res, run_solvers p dm solvers runs opt ≠ Except.ok res := by
  intro res h
  simp only [run_solvers] at h
  cases hc : collectAttempts p dm runs solvers with
  | error e2 => rw [hc] at h; cases h
  | ok raw =>
    exact collectAttempts_error_of_mem p dm runs name s e solvers hmem herr
      raw hc

/-- C1 counterexample: solver "a" succeeds and solver "b" raises on the
single repetition; `run_solvers` propagates the error instead of recording
the failure and producing metrics for "a" — the run is aborted. -/
theorem run_solvers_failure_counterexample :
    run_solvers pC2 [] [("a", solverOk), ("b", solverBad)] 1 (some 45) =
      Except.error "crash" := rfl

theorem run_solvers_aborts_witness :
    (("b", solverBad) ∈ [("a", solverOk), ("b", solverBad)]) ∧
    runAttempts pC2 [] solverBad 1 = Except.error "crash" ∧
    run_solvers pC2 [] [("a", solverOk), ("b", solverBad)] 1 (some 45) ≠
      Except.ok [] :=
  ⟨List.Mem.tail _ (List.Mem.head _), rfl,
    run_solvers_aborts_on_adapter_error pC2 []
      [("a", solverOk), ("b", solverBad)] 1 (some 45) "b" solverBad "crash"
      (List.Mem.tail _ (List.Mem.head _)) rfl []⟩

/-- C2 (amended): the averages divide by the total repetition count
`runs`, not by a count of successful repetitions; since any failed
repetition aborts `run_solvers` with an exception, metrics exist only
when every repetition succeeded, and then the length list has exactly
`runs` entries, so the reported mean coincides with the mean over the
(all-successful) repetitions. -/
theorem run_solvers_avg_over_total (p : Problem) (dm : List (List Int))
    (solvers : List (String × SolverFun)) (runs : Nat) (opt : Option ℚ)
    (res : List (String × Metrics)) (nm : String × Metrics)
    (hruns : 0 < runs)
    (h : run_solvers p dm solvers runs opt = Except.ok res)
    (hmem : nm ∈ res) :
    nm.2.lengths.length = runs ∧
    nm.2.avg_length =
      (nm.2.lengths.map (fun x => (x : ℚ))).sum /
        (nm.2.lengths.length : ℚ) := by
  simp only [run_solvers] at h
  cases hc : collectAttempts p dm runs solvers with
  | error e => rw [hc] at h; cases h
  | ok raw =>
    rw [hc] at h
    cases h
    rcases List.mem_map.mp hmem with ⟨r, hr, hnm⟩
    have hspec := (collectAttempts_ok_spec p dm runs solvers raw hc).2 r hr
    subst hnm
    simp only [mkMetrics]
    exact ⟨hspec.1, by rw [hspec.1]⟩

/-- C2 counterexample: repetition lengths `[10, 12, fail]` — the third
repetition raises, so `run_solvers` returns the error; no average (11 or
otherwise) is ever reported. -/
theorem run_solvers_fail_rep_counterexample :
    run_solvers pC2 [] [("s", solverRep)] 3 none = Except.error "boom" :=
  rfl

theorem run_solvers_avg_witness :
    0 < 1 ∧
    run_solvers pC2 [] [("s", solverOk)] 1 none =
      Except.ok [("s", mkMetrics 1 none [10] [1])] ∧
    (mkMetrics 1 none [10] [1]).lengths.length = 1 ∧
    (mkMetrics 1 none [10] [1]).avg_length =
      ((mkMetrics 1 none [10] [1]).lengths.map (fun x => (x : ℚ))).sum /
        ((mkMetrics 1 none [10] [1]).lengths.length : ℚ) :=
  ⟨Nat.one_pos, rfl,
    (run_solvers_avg_over_total pC2 [] [("s", solverOk)] 1 none
      [("s", mkMetrics 1 none [10] [1])] ("s", mkMetrics 1 none [10] [1])
      Nat.one_pos rfl (List.Mem.head _)).1,
    (run_solvers_avg_over_total pC2 [] [("s", solverOk)] 1 none
      [("s", mkMetrics 1 none [10] [1])] ("s", mkMetrics 1 none [10] [1])
      Nat.one_pos rfl (List.Mem.head _)).2⟩

/-- C4 (amended): the gap equals `(avg_length - L) / L * 100` whenever an
optimal length `L` is supplied and nonzero — including negative `L` — and
is `None` exactly when `L` is absent or `0` (Python truthiness); the code
does not guard against a negative denominator. -/
theorem run_solvers_gap_truthiness (p : Problem) (dm : List (List Int))
    (solvers : List (String × SolverFun)) (runs : Nat) (opt : Option ℚ)
    (res : List (String × Metrics)) (nm : String × Metrics)
    (h : run_solvers p dm solvers runs opt = Except.ok res)
    (hmem : nm ∈ res) :
    (opt = none → nm.2.gap = none) ∧
    ∀ L, opt = some L →
      (L = 0 → nm.2.gap = none) ∧
      (L ≠ 0 → nm.2.gap =
        some ((nm.2.avg_length - L) / L * 100)) := by
  simp only [run_solvers] at h
  cases hc : collectAttempts p dm runs solvers with
  | error e => rw [hc] at h; cases h
  | ok raw =>
    rw [hc] at h
    cases h
    rcases List.mem_map.mp hmem with ⟨r, hr, hnm⟩
    subst hnm
    simp only [mkMetrics, gapOf]
    constructor
    · intro hn; rw [hn]
    · intro L hL
      rw [hL]
      constructor
      · intro h0; simp [h0]
      · intro h0; simp [h0]

/-- C4 counterexample: with the non-positive optimal length `L = -1`
(truthy in Python), the gap is computed — `some (-1100)` — rather than
being absent as the claim requires for `L ≤ 0`. -/
theorem run_solvers_gap_negative_counterexample :
    run_solvers pC2 [] [("s", solverOk)] 1 (some (-1)) =
      Except.ok [("s", mkMetrics 1 (some (-1)) [10] [1])] ∧
    (mkMetrics 1 (some (-1)) [10] [1]).gap = some (-1100) ∧
    (-1 : ℚ) ≤ 0 :=
  ⟨rfl, by norm_num [mkMetrics, gapOf], by norm_num⟩

theorem run_solvers_gap_witness :
    run_solvers pC2 [] [("s", solverOk)] 1 (some 45) =
      Except.ok [("s", mkMetrics 1 (some 45) [10] [1])] ∧
    ((45 : ℚ) = 0 → (mkMetrics 1 (some 45) [10] [1]).gap = none) ∧
    ((45 : ℚ) ≠ 0 → (mkMetrics 1 (some 45) [10] [1]).gap =
      some (((mkMetrics 1 (some 45) [10] [1]).avg_length - 45) / 45 *
        100)) :=
  ⟨rfl,
    ((run_solvers_gap_truthiness pC2 [] [("s", solverOk)] 1 (some 45)
      [("s", mkMetrics 1 (some 45) [10] [1])]
      ("s", mkMetrics 1 (some 45) [10] [1]) rfl (List.Mem.head _)).2 45
        rfl).1,
    ((run_solvers_gap_truthiness pC2 [] [("s", solverOk)] 1 (some 45)
      [("s", mkMetrics 1 (some 45) [10] [1])]
      ("s", mkMetrics 1 (some 45) [10] [1]) rfl (List.Mem.head _)).2 45
        rfl).2⟩

theorem run_solvers_ok_names (p : Problem) (dm : List (List Int))
    (solvers : List (String × SolverFun)) (runs : Nat) (opt : Option ℚ)
    (res : List (String × Metrics))
    (h : run_solvers p dm solvers runs opt = Except.ok res) :
    res.map Prod.fst = solvers.map Prod.fst := by
  simp only [run_solvers] at h
  cases hc : collectAttempts p dm runs solvers with
  | error e => rw [hc] at h; cases h
  | ok raw =>
    rw [hc] at h
    cases h
    have h2 := (collectAttempts_ok_spec p dm runs solvers raw hc).1
    simpa [List.map_map, Function.comp] using h2

theorem mainLoop_ok_rows (solvers : List (String × SolverFun))
    (runs : Nat) :
    ∀ instances rows, mainLoop solvers runs instances = Except.ok rows →
      ∀ r ∈ rows, r.dimension ≤ 100 ∧
        r.results.map Prod.fst = solvers.map Prod.fst := by
  intro instances
  induction instances with
  | nil =>
    intro rows h r hr
    simp only [mainLoop] at h
    cases h
    cases hr
  | cons inst rest ih =>
    intro rows h r hr
    simp only [mainLoop] at h
    split at h
    · cases h
    · rename_i p hp
      split at h
      · exact ih rows h r hr
      · rename_i hdim
        split at h
        · cases h
        · rename_i t ht
          split at h
          · cases h
          · rename_i results hrs
            split at h
            · cases h
            · rename_i rows0 hm
              cases h
              cases hr with
              | head =>
                exact ⟨Nat.le_of_not_lt hdim,
                  run_solvers_ok_names p (get_distance_matrix p) solvers
                    runs (some ((get_tour_length p t : Int) : ℚ)) results
                    hrs⟩
              | tail _ hr2 => exact ih rows0 hm r hr2

/-- C10: every row produced by the corpus loop comes from an instance of
dimension at most 100 — the loop's filter is the literal `100`, not the
configured `MAX_PROBLEM_SIZE = 1000`: an instance of dimension 500
(well below `MAX_PROBLEM_SIZE`) is skipped before any solver runs. -/
theorem mainLoop_rows_dimension_le_100 (solvers : List (String × SolverFun))
    (runs : Nat) (instances : List InstanceFiles) (rows : List Row)
    (h : mainLoop solvers runs instances = Except.ok rows) :
    (∀ r ∈ rows, r.dimension ≤ 100) ∧
    MAX_PROBLEM_SIZE = 1000 ∧ 500 ≤ MAX_PROBLEM_SIZE ∧
    mainLoop solvers runs [inst500] = Except.ok [] :=
  ⟨fun r hr => (mainLoop_ok_rows solvers runs instances rows h r hr).1,
   rfl, by norm_num [MAX_PROBLEM_SIZE], rfl⟩

theorem mainLoop_dimension_witness :
    mainLoop [("s", solverOne)] 1 [instGood] = Except.ok [rowGoodM] ∧
    rowGoodM.dimension ≤ 100 :=
  ⟨rfl,
    (mainLoop_rows_dimension_le_100 [("s", solverOne)] 1 [instGood]
      [rowGoodM] rfl).1 rowGoodM (List.Mem.head _)⟩

/-- C6 (amended): an instance whose problem file fails to load aborts the
entire corpus loop — `main` has no try/except, so the run does not skip
the instance and continue; no row list is ever produced. -/
theorem mainLoop_aborts_on_load_error (solvers : List (String × SolverFun))
    (runs : Nat) :
    ∀ instances (i : InstanceFiles) (e : String), i ∈ instances →
      i.problem = Except.error e →
      ∀ rows, mainLoop solvers runs instances ≠ Except.ok rows := by
  intro instances
  induction instances with
  | nil => intro i e hmem; cases hmem
  | cons inst rest ih =>
    intro i e hmem herr rows h
    simp only [mainLoop] at h
    cases hmem with
    | head => rw [herr] at h; cases h
    | tail _ hmem2 =>
      split at h
      · cases h
      · split at h
        · exact ih i e hmem2 herr rows h
        · split at h
          · cases h
          · split at h
            · cases h
            · split at h
              · cases h
              · rename_i rows0 hm
                exact ih i e hmem2 herr rows0 hm

/-- C6 counterexample: the first instance's `.tsp` file fails to parse;
the loop does not skip it and continue with the loadable second instance —
the whole run aborts with the parse error. -/
theorem mainLoop_load_error_counterexample :
    mainLoop [("s", solverOne)] 1 [instBad, instGood] =
      Except.error "parse error" := rfl

theorem mainLoop_load_error_witness :
    (instBad ∈ [instBad, instGood]) ∧
    instBad.problem = Except.error "parse error" ∧
    mainLoop [("s", solverOne)] 1 [instBad, instGood] ≠ Except.ok [] :=
  ⟨List.Mem.head _, rfl,
    mainLoop_aborts_on_load_error [("s", solverOne)] 1 [instBad, instGood]
      instBad "parse error" (List.Mem.head _) rfl []⟩

theorem flatMap_solverCells_keys :
    ∀ results : List (String × Metrics),
      (results.flatMap solverCells).map Prod.fst =
      (results.map Prod.fst).flatMap (fun n =>
        [n ++ "_avg_length", n ++ "_avg_time", n ++ "_gap"]) := by
  intro results
  induction results with
  | nil => rfl
  | cons e rest ih =>
    simp only [List.flatMap_cons, List.map_cons, List.map_append, ih]
    congr 1
    cases hg : e.2.gap <;> simp [solverCells, hg]

/-- C7: the CSV written by `main` has the header row exactly once, first,
with columns `instance_name, dimension, optimal_length` followed by the
triple `<name>_avg_length, <name>_avg_time, <name>_gap` for each solver in
declaration order; and every appended row is keyed by exactly these
columns in exactly this order. -/
theorem mainCsv_schema (solvers : List (String × SolverFun)) (runs : Nat)
    (instances : List InstanceFiles) (rows : List Row)
    (h : mainLoop solvers runs instances = Except.ok rows) :
    mainCsv solvers runs instances =
      Except.ok (fieldnamesOf (solvers.map Prod.fst) ::
        rows.map (fun r => writerow (fieldnamesOf (solvers.map Prod.fst))
          (csvRowOf r))) ∧
    ∀ r ∈ rows, (csvRowOf r).map Prod.fst =
      fieldnamesOf (solvers.map Prod.fst) := by
  constructor
  · simp only [mainCsv, h]
  · intro r hr
    have hnames := (mainLoop_ok_rows solvers runs instances rows h r hr).2
    simp [csvRowOf, fieldnamesOf, List.map_append,
      flatMap_solverCells_keys, hnames]

theorem mainCsv_schema_witness :
    mainLoop [("s", solverOne)] 1 [instGood] = Except.ok [rowGoodM] ∧
    (csvRowOf rowGoodM).map Prod.fst = fieldnamesOf ["s"] :=
  ⟨rfl,
    (mainCsv_schema [("s", solverOne)] 1 [instGood] [rowGoodM] rfl).2
      rowGoodM (List.Mem.head _)⟩

/-- C8: a solver with an absent gap gets the CSV cell `None` — serialized
as the empty field, never a number — and no "Optimality gap" line in the
narrative output. -/
theorem absent_gap_serialization (name : String) (m : Metrics)
    (h : m.gap = none) :
    solverCells (name, m) =
      [(name ++ "_avg_length", CellVal.q (pyRound 2 m.avg_length)),
       (name ++ "_avg_time", CellVal.q (pyRound 4 m.avg_time)),
       (name ++ "_gap", CellVal.null)] ∧
    serializeCell CellVal.null = "" ∧
    (∀ v : ℚ, CellVal.null ≠ CellVal.q v) ∧
    solverNarrative name m =
      ["\n" ++ name ++ " RESULTS:",
       "  Average length: " ++ toString m.avg_length,
       "  Average time: " ++ toString m.avg_time ++ " seconds"] := by
  refine ⟨?_, rfl, ?_, ?_⟩
  · simp [solverCells, h]
  · intro v hv; cases hv
  · simp [solverNarrative, h]

theorem absent_gap_witness :
    (mkMetrics 1 none [0] [0]).gap = none ∧
    solverCells ("s", mkMetrics 1 none [0] [0]) =
      [("s" ++ "_avg_length",
        CellVal.q (pyRound 2 (mkMetrics 1 none [0] [0]).avg_length)),
       ("s" ++ "_avg_time",
        CellVal.q (pyRound 4 (mkMetrics 1 none [0] [0]).avg_time)),
       ("s" ++ "_gap", CellVal.null)] :=
  ⟨rfl, (absent_gap_serialization "s" (mkMetrics 1 none [0] [0]) rfl).1⟩

/-- C9: on the no-solution branch `GoogleORToolsSolver.solve` returns the
2-tuple `([], float("inf"))` — not a value of the declared `List[int]`
shape, and `[]` is not a valid tour of any instance with at least one
node; on the success branch it returns the extracted route, which starts
at node 0, with the duplicated final start node removed. -/
theorem orToolsSolve_branches (n : Nat) (raw : List Nat) (hn : 1 ≤ n)
    (h0 : raw.head? = some 0) (hl : raw.getLast? = some 0)
    (h2 : 1 < raw.length) :
    orToolsSolve none = PySolveResult.pair [] PyFloat.inf ∧
    (∀ t, orToolsSolve none ≠ PySolveResult.tourList t) ∧
    isValidTour n [] = false ∧
    orToolsSolve (some raw) = PySolveResult.tourList raw.dropLast ∧
    raw.dropLast.head? = some 0 := by
  refine ⟨rfl, ?_, ?_, ?_, ?_⟩
  · intro t hv; cases hv
  · simp only [isValidTour, List.length_nil]
    have hz : (0 == n) = false := by
      simp only [beq_eq_false_iff_ne]
      omega
    simp [hz]
  · simp only [orToolsSolve, orToolsExtract]
    rw [if_pos]
    simp only [Bool.and_eq_true, decide_eq_true_eq, beq_iff_eq]
    exact ⟨h2, by rw [h0, hl]⟩
  · cases raw with
    | nil => cases h0
    | cons a rest =>
      cases rest with
      | nil => simp at h2
      | cons b rest2 =>
        simp only [List.head?_cons, Option.some_inj] at h0
        subst h0
        simp [List.dropLast]

theorem orToolsSolve_witness :
    1 ≤ 3 ∧ ([0, 1, 2, 0] : List Nat).head? = some 0 ∧
    ([0, 1, 2, 0] : List Nat).getLast? = some 0 ∧
    1 < ([0, 1, 2, 0] : List Nat).length ∧
    orToolsSolve (some [0, 1, 2, 0]) =
      PySolveResult.tourList (([0, 1, 2, 0] : List Nat).dropLast) ∧
    ([0, 1, 2, 0] : List Nat).dropLast.head? = some 0 :=
  ⟨by decide, by decide, by decide, by decide,
    (orToolsSolve_branches 3 [0, 1, 2, 0] (by decide) (by decide)
      (by decide) (by decide)).2.2.2.1,
    (orToolsSolve_branches 3 [0, 1, 2, 0] (by decide) (by decide)
      (by decide) (by decide)).2.2.2.2⟩

theorem foldl_min_le : ∀ (t : List Nat) (a : Nat),
    t.foldl Nat.min a ≤ a ∧ ∀ x ∈ t, t.foldl Nat.min a ≤ x := by
  intro t
  induction t with
  | nil =>
    intro a
    exact ⟨Nat.le_refl a, by intro x hx; cases hx⟩
  | cons b t2 ih =>
    intro a
    constructor
    · exact Nat.le_trans (ih (Nat.min a b)).1 (Nat.min_le_left a b)
    · intro x hx
      cases hx with
      | head =>
        exact Nat.le_trans (ih (Nat.min a b)).1 (Nat.min_le_right a b)
      | tail _ hx2 => exact (ih (Nat.min a b)).2 x hx2

theorem listMinD_eq_zero (l : List Nat) (h : (0 : Nat) ∈ l) :
    listMinD l 0 = 0 := by
  cases l with
  | nil => cases h
  | cons a t =>
    have h2 : listMinD (a :: t) 0 ≤ 0 := by
      cases h with
      | head => exact (foldl_min_le t 0).1
      | tail _ h3 => exact (foldl_min_le t a).2 0 h3
    exact Nat.le_zero.mp h2

theorem sum_map_range (f : Nat → Int) (n : Nat) :
    ((List.range n).map f).sum = ∑ i ∈ Finset.range n, f i := by
  induction n with
  | zero => rfl
  | succ m ih =>
    rw [List.range_succ, List.map_append, List.sum_append,
      Finset.sum_range_succ, ih]
    simp

theorem getD_rotate (t : List Nat) (k i : Nat) (h : i < t.length) :
    (t.rotate k).getD i 0 = t.getD ((i + k) % t.length) 0 := by
  have h2 : i < (t.rotate k).length := by
    rw [List.length_rotate]; exact h
  rw [List.getD_eq_getElem _ _ h2,
    List.getD_eq_getElem _ _ (Nat.mod_lt _ (by omega)),
    List.getElem_rotate]

theorem getD_reversed (t : List Nat) (i : Nat) (h : i < t.length) :
    t.reverse.getD i 0 = t.getD (t.length - 1 - i) 0 := by
  have h2 : i < t.reverse.length := by
    rw [List.length_reverse]; exact h
  rw [List.getD_eq_getElem _ _ h2, List.getD_eq_getElem _ _ (by omega),
    List.getElem_reverse]

theorem cyc_eq_sum (w : Nat → Nat → Int) (u : List Nat) :
    cyc w u = ∑ i ∈ Finset.range u.length,
      w (u.getD i 0) (u.getD ((i + 1) % u.length) 0) := by
  rw [cyc, sum_map_range]

theorem cyc_rotate_one (w : Nat → Nat → Int) (t : List Nat)
    (hn : 0 < t.length) : cyc w (t.rotate 1) = cyc w t := by
  rw [cyc_eq_sum, cyc_eq_sum, List.length_rotate]
  refine Finset.sum_nbij' (fun i => (i + 1) % t.length)
    (fun i => (i + (t.length - 1)) % t.length) ?_ ?_ ?_ ?_ ?_
  · intro a ha
    exact Finset.mem_range.mpr (Nat.mod_lt _ hn)
  · intro a ha
    exact Finset.mem_range.mpr (Nat.mod_lt _ hn)
  · intro a ha
    show ((a + 1) % t.length + (t.length - 1)) % t.length = a
    rw [Nat.mod_add_mod]
    have h3 : a + 1 + (t.length - 1) = a + t.length := by omega
    rw [h3, Nat.add_mod_right]
    exact Nat.mod_eq_of_lt (Finset.mem_range.mp ha)
  · intro a ha
    show ((a + (t.length - 1)) % t.length + 1) % t.length = a
    rw [Nat.mod_add_mod]
    have h3 : a + (t.length - 1) + 1 = a + t.length := by omega
    rw [h3, Nat.add_mod_right]
    exact Nat.mod_eq_of_lt (Finset.mem_range.mp ha)
  · intro a ha
    have ha2 := Finset.mem_range.mp ha
    rw [getD_rotate t 1 a ha2, getD_rotate t 1 _ (Nat.mod_lt _ hn)]

theorem cyc_rotate (w : Nat → Nat → Int) :
    ∀ (k : Nat) (t : List Nat), 0 < t.length →
      cyc w (t.rotate k) = cyc w t := by
  intro k
  induction k with
  | zero =>
    intro t hn
    rw [List.rotate_zero]
  | succ m ih =>
    intro t hn
    have h1 : t.rotate (m + 1) = (t.rotate 1).rotate m := by
      rw [List.rotate_rotate, Nat.add_comm]
    rw [h1, ih (t.rotate 1) (by rw [List.length_rotate]; exact hn),
      cyc_rotate_one w t hn]

theorem cyc_reverse (w : Nat → Nat → Int) (t : List Nat)
    (hn : 0 < t.length) (hsym : ∀ a b, w a b = w b a) :
    cyc w t.reverse = cyc w t := by
  rw [cyc_eq_sum, cyc_eq_sum, List.length_reverse]
  refine Finset.sum_nbij'
    (fun i => t.length - 1 - (i + 1) % t.length)
    (fun i => (t.length - 1 - i + (t.length - 1)) % t.length)
    ?_ ?_ ?_ ?_ ?_
  · intro a ha
    refine Finset.mem_range.mpr ?_
    show t.length - 1 - (a + 1) % t.length < t.length
    omega
  · intro a ha
    exact Finset.mem_range.mpr (Nat.mod_lt _ hn)
  · intro a ha
    have han := Finset.mem_range.mp ha
    show (t.length - 1 - (t.length - 1 - (a + 1) % t.length) +
      (t.length - 1)) % t.length = a
    rcases Nat.lt_or_ge (a + 1) t.length with hlt | hge
    · rw [Nat.mod_eq_of_lt hlt]
      have h3 : t.length - 1 - (t.length - 1 - (a + 1)) = a + 1 := by
        omega
      rw [h3]
      have h4 : a + 1 + (t.length - 1) = a + t.length := by omega
      rw [h4, Nat.add_mod_right]
      exact Nat.mod_eq_of_lt han
    · have hae : a + 1 = t.length := by omega
      rw [hae, Nat.mod_self]
      have h3 : t.length - 1 - (t.length - 1 - 0) + (t.length - 1) =
          t.length - 1 := by omega
      rw [h3]
      rw [Nat.mod_eq_of_lt (by omega)]
      omega
  · intro b hb
    have hbn := Finset.mem_range.mp hb
    show t.length - 1 -
      ((t.length - 1 - b + (t.length - 1)) % t.length + 1) % t.length = b
    rcases Nat.lt_or_ge b (t.length - 1) with hlt | hge
    · have h3 : t.length - 1 - b + (t.length - 1) =
          (t.length - 2 - b) + t.length := by omega
      rw [h3, Nat.add_mod_right]
      have h5 : (t.length - 2 - b) % t.length = t.length - 2 - b :=
        Nat.mod_eq_of_lt (by omega)
      rw [h5]
      have h4 : t.length - 2 - b + 1 = t.length - 1 - b := by omega
      rw [h4]
      have h6 : (t.length - 1 - b) % t.length = t.length - 1 - b :=
        Nat.mod_eq_of_lt (by omega)
      rw [h6]
      omega
    · have hbe : b = t.length - 1 := by omega
      subst hbe
      have h3 : t.length - 1 - (t.length - 1) + (t.length - 1) =
          t.length - 1 := by omega
      rw [h3]
      have h5 : (t.length - 1) % t.length = t.length - 1 :=
        Nat.mod_eq_of_lt (by omega)
      rw [h5]
      have h4 : t.length - 1 + 1 = t.length := by omega
      rw [h4, Nat.mod_self]
      omega
  · intro a ha
    have han := Finset.mem_range.mp ha
    have hb1 : (a + 1) % t.length < t.length := Nat.mod_lt _ hn
    show w (t.reverse.getD a 0) (t.reverse.getD ((a + 1) % t.length) 0) =
      w (t.getD (t.length - 1 - (a + 1) % t.length) 0)
        (t.getD ((t.length - 1 - (a + 1) % t.length + 1) % t.length) 0)
    rw [getD_reversed t a han, getD_reversed t _ hb1, hsym]
    have hidx : (t.length - 1 - (a + 1) % t.length + 1) % t.length =
        t.length - 1 - a := by
      rcases Nat.lt_or_ge (a + 1) t.length with hlt | hge
      · rw [Nat.mod_eq_of_lt hlt]
        have h3 : t.length - 1 - (a + 1) + 1 = t.length - 1 - a := by
          omega
        rw [h3, Nat.mod_eq_of_lt (by omega)]
      · have hae : a + 1 = t.length := by omega
        rw [hae, Nat.mod_self]
        have h3 : t.length - 1 - 0 + 1 = t.length := by omega
        rw [h3, Nat.mod_self]
        omega
    rw [hidx]

theorem get_tour_length_eq_cyc (p : Problem) (t : List Nat)
    (hlen : t.length = p.dimension) (hmin : listMinD t 0 = 0) :
    get_tour_length p t =
      cyc (fun a b => p.weight (a + listMinD p.nodes 0)
        (b + listMinD p.nodes 0)) t := by
  rw [get_tour_length, cyc, ← hlen, hmin]
  simp

theorem isValidTour_parts (n : Nat) (t : List Nat)
    (h : isValidTour n t = true) :
    t.length = n ∧ ∀ i, i < n → i ∈ t := by
  simp only [isValidTour, Bool.and_eq_true, beq_iff_eq,
    List.all_eq_true] at h
  refine ⟨h.1, fun i hi => ?_⟩
  have h2 := h.2 i (List.mem_range.mpr hi)
  simpa using h2

/-- C5 (amended): the tour length computed by `get_tour_length` is
invariant under rotation of a valid tour for every weight function; it is
invariant under reversal when the weight function is symmetric (for
asymmetric matrices — which the spec's data model admits — reversal can
change the length, see the counterexample). -/
theorem tour_length_rotate_reverse (p : Problem) (t : List Nat) (k : Nat)
    (hv : isValidTour p.dimension t = true) (hd : 0 < p.dimension) :
    get_tour_length p (t.rotate k) = get_tour_length p t ∧
    ((∀ a b, p.weight a b = p.weight b a) →
      get_tour_length p t.reverse = get_tour_length p t) := by
  obtain ⟨hlen, hmem⟩ := isValidTour_parts p.dimension t hv
  have hn : 0 < t.length := by omega
  have h0 : (0 : Nat) ∈ t := hmem 0 hd
  have hmin : listMinD t 0 = 0 := listMinD_eq_zero t h0
  have hminr : listMinD (t.rotate k) 0 = 0 :=
    listMinD_eq_zero _ ((List.rotate_perm t k).mem_iff.mpr h0)
  have hminv : listMinD t.reverse 0 = 0 :=
    listMinD_eq_zero _ (List.mem_reverse.mpr h0)
  constructor
  · rw [get_tour_length_eq_cyc p (t.rotate k)
      (by rw [List.length_rotate]; exact hlen) hminr,
      get_tour_length_eq_cyc p t hlen hmin]
    exact cyc_rotate _ k t hn
  · intro hsym
    rw [get_tour_length_eq_cyc p t.reverse
      (by rw [List.length_reverse]; exact hlen) hminv,
      get_tour_length_eq_cyc p t hlen hmin]
    exact cyc_reverse _ t hn (fun a b => hsym _ _)

/-- C5 counterexample: over the asymmetric (but non-negative, zero
diagonal) weights of `pAsym`, reversing the valid tour `[0, 1, 2]`
changes its length from 1 to 2 — reversal invariance fails for matrices
that are "not required to be symmetric". -/
theorem tour_length_reverse_counterexample :
    isValidTour pAsym.dimension [0, 1, 2] = true ∧
    get_tour_length pAsym (([0, 1, 2] : List Nat).reverse) ≠
      get_tour_length pAsym [0, 1, 2] :=
  ⟨by decide, by decide⟩

theorem tour_length_rotate_reverse_witness :
    isValidTour pSym.dimension [0, 1, 2] = true ∧ 0 < pSym.dimension ∧
    get_tour_length pSym (([0, 1, 2] : List Nat).rotate 1) =
      get_tour_length pSym [0, 1, 2] ∧
    get_tour_length pSym (([0, 1, 2] : List Nat).reverse) =
      get_tour_length pSym [0, 1, 2] :=
  ⟨by decide, by decide,
    (tour_length_rotate_reverse pSym [0, 1, 2] 1 (by decide)
      (by decide)).1,
    (tour_length_rotate_reverse pSym [0, 1, 2] 1 (by decide)
      (by decide)).2 (fun a b => Int.mul_comm (a : Int) (b : Int))⟩

theorem getD_map_range (f : Nat → Int) (n i : Nat) (d : Int)
    (h : i < n) : ((List.range n).map f).getD i d = f i := by
  rw [List.getD_eq_getElem _ _ (by simpa using h), List.getElem_map,
    List.getElem_range]

theorem getD_map_range_row (f : Nat → List Int) (n i : Nat)
    (h : i < n) : ((List.range n).map f).getD i [] = f i := by
  rw [List.getD_eq_getElem _ _ (by simpa using h), List.getElem_map,
    List.getElem_range]

theorem get_distance_matrix_entry (p : Problem) (a b : Nat)
    (ha : a < p.dimension) (hb : b < p.dimension) (hab : a ≠ b) :
    (((get_distance_matrix p).getD a []).getD b 0) =
      10000 * p.weight (a + listMinD p.nodes 0)
        (b + listMinD p.nodes 0) := by
  rw [get_distance_matrix, getD_map_range_row _ _ _ ha,
    getD_map_range _ _ _ _ hb, if_pos hab]

theorem validTour_perm_range (n : Nat) (t : List Nat)
    (h : isValidTour n t = true) : List.Perm t (List.range n) := by
  obtain ⟨hlen, hmem⟩ := isValidTour_parts n t h
  have hsub : List.range n ⊆ t := by
    intro i hi
    exact hmem i (List.mem_range.mp hi)
  have hsp : List.Subperm (List.range n) t :=
    (List.nodup_range n).subperm hsub
  exact (hsp.perm_of_length_le (by rw [hlen, List.length_range])).symm

/-- C3 (amended): the tour length used for reporting is computed from the
problem's raw weight function, not from the matrix handed to the solvers;
on that matrix (entries `10000 * w`) the spec's cyclic sum equals exactly
`10000` times the reported length for every valid tour of an instance
with at least two nodes. -/
theorem specMatrix_eq_scaled_tour_length (p : Problem) (t : List Nat)
    (hv : isValidTour p.dimension t = true) (h2 : 2 ≤ p.dimension) :
    specMatrixTourLength (get_distance_matrix p) t =
      10000 * get_tour_length p t := by
  obtain ⟨hlen, hmem⟩ := isValidTour_parts p.dimension t hv
  have hperm := validTour_perm_range p.dimension t hv
  have hnd : t.Nodup := hperm.nodup_iff.mpr (List.nodup_range _)
  have hn : 0 < p.dimension := by omega
  have h0 : (0 : Nat) ∈ t := hmem 0 hn
  have hmin : listMinD t 0 = 0 := listMinD_eq_zero t h0
  have hbound : ∀ x, x ∈ t → x < p.dimension := by
    intro x hx
    exact List.mem_range.mp (hperm.mem_iff.mp hx)
  have hD : (get_distance_matrix p).length = p.dimension := by
    simp [get_distance_matrix]
  rw [specMatrixTourLength, get_tour_length]
  simp only [hD, hmin, Nat.sub_zero]
  rw [sum_map_range, sum_map_range, Finset.mul_sum]
  apply Finset.sum_congr rfl
  intro i hi
  have hi2 : i < t.length := Finset.mem_range.mp hi
  have hi3 : (i + 1) % p.dimension < t.length := by
    rw [hlen]
    exact Nat.mod_lt _ hn
  have hij : (i + 1) % p.dimension ≠ i := by
    intro hcon
    rcases Nat.lt_or_ge (i + 1) p.dimension with hlt | hge
    · rw [Nat.mod_eq_of_lt hlt] at hcon
      omega
    · have hie : i + 1 = p.dimension := by omega
      rw [hie, Nat.mod_self] at hcon
      omega
  have ha : t.getD i 0 < p.dimension := by
    rw [List.getD_eq_getElem t 0 hi2]
    exact hbound _ (List.getElem_mem hi2)
  have hb : t.getD ((i + 1) % p.dimension) 0 < p.dimension := by
    rw [List.getD_eq_getElem t 0 hi3]
    exact hbound _ (List.getElem_mem hi3)
  have hab : t.getD i 0 ≠ t.getD ((i + 1) % p.dimension) 0 := by
    rw [List.getD_eq_getElem t 0 hi2, List.getD_eq_getElem t 0 hi3]
    intro hcon
    exact hij (hnd.getElem_inj_iff.mp hcon).symm
  rw [get_distance_matrix_entry p _ _ ha hb hab]

/-- C3 counterexample: on the three-node unit-weight instance, the
reported tour length of `[0, 1, 2]` is 3 while the spec's cyclic sum on
the matrix passed to the solvers is 30000 — the reported length is not
computed on that matrix. -/
theorem tour_length_not_matrix_counterexample :
    get_tour_length pUnitW [0, 1, 2] ≠
      specMatrixTourLength (get_distance_matrix pUnitW) [0, 1, 2] := by
  decide

theorem specMatrix_scaled_witness :
    isValidTour pUnitW.dimension [0, 1, 2] = true ∧
    2 ≤ pUnitW.dimension ∧
    specMatrixTourLength (get_distance_matrix pUnitW) [0, 1, 2] =
      10000 * get_tour_length pUnitW [0, 1, 2] :=
  ⟨by decide, by decide,
    specMatrix_eq_scaled_tour_length pUnitW [0, 1, 2] (by decide)
      (by decide)⟩
